import Mathlib

/-!
Verification of the chunking-and-map-reduce summarization pipeline of
`summarizer.py` / `agent_pdf_summarizer.py` (the two files contain identical
copies of `chunk_text`, `summarize_chunk` and `combine_chunk_summaries`).

Modelling choices:
* Python strings are `List Char`; `text[a:b]` is `pySlice`, `str.strip` is
  `pyStrip`.
* The `while start < len(text)` loop of `chunk_text` is a fuel-indexed loop
  `chunkLoop`; `none` means the loop did not finish within the given fuel.
  `chunk_text` supplies fuel `len(text) + 1`, which is proved sufficient
  whenever the advance step `chunk_size - overlap` is positive, so `none`
  coincides with divergence of the Python loop.
* The generation service is an abstract oracle from requests to either a
  response text or a service error; the orchestrator records the sequence of
  component calls it makes, in order, as a trace.
-/

namespace PdfAgent

set_option maxRecDepth 40000

/-- Effective bound of a Python slice index on a sequence of length `n`:
negative indices count from the end, and bounds are clamped into `[0, n]`. -/
def sliceBound (n : Nat) (i : Int) : Nat :=
  if i < 0 then (i + n).toNat else min i.toNat n

/-- Python `text[a:b]` on a list of characters. -/
def pySlice (text : List Char) (a b : Int) : List Char :=
  (text.take (sliceBound text.length b)).drop (sliceBound text.length a)

/-- Python `text.strip()`: remove leading and trailing whitespace. -/
def pyStrip (l : List Char) : List Char :=
  ((l.dropWhile Char.isWhitespace).reverse.dropWhile Char.isWhitespace).reverse

/-- The `while start < len(text)` loop of `chunk_text`
(`summarizer.py` lines 13-17): slice `text[start:end]`, append it, then set
`start = end - overlap` and `end = start + chunk_size`.  Fuel-indexed; `none`
means the loop was still running when the fuel ran out. -/
def chunkLoop (text : List Char) (chunk_size overlap : Int) :
    Nat → Int → Int → List (List Char) → Option (List (List Char))
  | 0, _, _, _ => none
  | fuel + 1, start, stop, chunks =>
    if start < (text.length : Int) then
      chunkLoop text chunk_size overlap fuel (stop - overlap) (stop - overlap + chunk_size)
        (chunks ++ [pySlice text start stop])
    else
      some chunks

/-- `chunk_text(text, chunk_size, overlap)` (`summarizer.py` lines 7-18):
a text no longer than `chunk_size` is returned as the single chunk `[text]`,
otherwise the loop runs from `start = 0`, `end = chunk_size`.  Fuel
`len(text) + 1` is sufficient for every terminating configuration of the
Python loop. -/
def chunk_text (text : List Char) (chunk_size overlap : Nat) :
    Option (List (List Char)) :=
  if text.length ≤ chunk_size then some [text]
  else chunkLoop text chunk_size overlap (text.length + 1) 0 chunk_size []

/-- The start/end offsets (end clipped to `n`) of the windows produced by the
chunking loop on a text of length `n`, window length `c`, advance step `s`,
beginning at offset `start`.  Fuel-indexed structural recursion. -/
def windowsFrom (n c s : Nat) : Nat → Nat → List (Nat × Nat)
  | 0, _ => []
  | fuel + 1, start =>
    if start < n then (start, min (start + c) n) :: windowsFrom n c s fuel (start + s)
    else []

/-- All window ranges of the chunking loop started at offset 0; fuel `n`
is sufficient whenever the step `s` is positive. -/
def windowRanges (n c s : Nat) : List (Nat × Nat) :=
  windowsFrom n c s n 0

/-- The substring of `text` delimited by a half-open offset range. -/
def sliceRange (text : List Char) (r : Nat × Nat) : List Char :=
  (text.take r.2).drop r.1

/-- Length of the intersection of two half-open ranges. -/
def interLen (p q : Nat × Nat) : Nat :=
  min p.2 q.2 - max p.1 q.1

/-- The coverage-and-overlap property claimed for the window ranges of the
chunks: every character position of the text lies in some range, and every
pair of consecutive ranges, except possibly the pair involving the final
chunk, intersects in exactly `overlap` positions. -/
def chunkRangeClaim (text : List Char) (c o : Nat) : Prop :=
  (∀ p < text.length,
    ∃ r ∈ windowRanges text.length c (c - o), r.1 ≤ p ∧ p < r.2) ∧
  ∀ pr ∈ ((windowRanges text.length c (c - o)).zip
      (windowRanges text.length c (c - o)).tail).dropLast,
    interLen pr.1 pr.2 = o

instance (text : List Char) (c o : Nat) : Decidable (chunkRangeClaim text c o) := by
  unfold chunkRangeClaim
  infer_instance

/-- The tone-instruction table of `summarize_chunk` (`summarizer.py` lines
26-31): a dict lookup whose default value equals the entry for "default". -/
def chunkStyleInstruction (style : String) : String :=
  if style = "default" then "Use a clear, student-friendly tone."
  else if style = "bullet" then "Focus on bullet points only."
  else if style = "narrative" then "Write in a smooth narrative style."
  else if style = "executive" then "Write in an executive-style summary for busy leaders."
  else "Use a clear, student-friendly tone."

/-- The tone-instruction table of `combine_chunk_summaries` (`summarizer.py`
lines 63-68). -/
def combineStyleInstruction (style : String) : String :=
  if style = "default" then "Use a clear, student-friendly tone."
  else if style = "bullet" then "Focus heavily on structured bullet points."
  else if style = "narrative" then "Write in a smooth narrative style."
  else if style = "executive" then "Write an executive-style summary with key risks, insights, and actions."
  else "Use a clear, student-friendly tone."

/-- One role-tagged message of a generation request. -/
structure Message where
  role : String
  content : List Char
  deriving DecidableEq

/-- A request to the generation service: model identifier plus ordered
messages (the sampling temperature carries no information for the claims). -/
structure GenRequest where
  model : String
  messages : List Message
  deriving DecidableEq

/-- The fixed part of the user message of `summarize_chunk`, before the
(truncated) chunk text. -/
def chunkUserPreamble : List Char :=
  ("Summarize the following part of a document in 5–8 bullet points. Keep it compact but capture all key ideas.\n\n").data

/-- The request built by `summarize_chunk` (`summarizer.py` lines 33-53):
system instruction plus tone, user instruction with the chunk truncated to
its first 12,000 characters. -/
def summarizeChunkRequest (chunk : List Char) (model style : String) : GenRequest :=
  { model := model,
    messages := [
      { role := "system",
        content := ("You are a concise assistant that summarizes educational documents. ").data
          ++ (chunkStyleInstruction style).data },
      { role := "user",
        content := chunkUserPreamble ++ chunk.take 12000 } ] }

/-- The separator `"\n\n---\n\n"` used to join the chunk summaries. -/
def combineSeparator : List Char :=
  ("\n\n---\n\n").data

/-- The fixed part of the user message of `combine_chunk_summaries`, before
the (truncated) joined summaries. -/
def combineUserPreamble (title style : String) : List Char :=
  ("Document title: ").data ++ title.data
    ++ ("\n\nYou are given partial summaries of different parts of a longer document.\n\nTASK:\n1) Read all the partial summaries.\n2) Produce a single, well-structured summary with this schema:\n   - Title\n   - 5–7 sentence overview\n   - 5–10 bullet key ideas\n   - Optional: 3–5 action items or next steps\n\nWrite in this style: ").data
    ++ (combineStyleInstruction style).data
    ++ ("\n\nHere are the partial summaries:\n\n").data

/-- The request built by `combine_chunk_summaries` (`summarizer.py` lines
70-101): the summaries are joined with `combineSeparator` and the joined
text truncated to its first 24,000 characters. -/
def combineRequest (summaries : List (List Char)) (model style title : String) : GenRequest :=
  { model := model,
    messages := [
      { role := "system",
        content := ("You are an assistant that turns multiple partial summaries into one clear, structured summary a college student can use to study.").data },
      { role := "user",
        content := combineUserPreamble title style
          ++ (List.intercalate combineSeparator summaries).take 24000 } ] }

/-- The content of the user message of a request (both request shapes carry
exactly one system and one user message, in that order). -/
def userContent (r : GenRequest) : List Char :=
  match r.messages with
  | [_, u] => u.content
  | _ => []

/-- A failure of the external generation service. -/
inductive GenErr where
  | serviceError (msg : String)
  deriving DecidableEq

/-- The error kinds of the pipeline: empty extracted text (the
`ValueError("No text extracted from PDF.")` of the source, named
`EmptyDocumentError` by the specification) and propagated service errors. -/
inductive PError where
  | emptyDocument
  | genError (e : GenErr)
  deriving DecidableEq

/-- One component call of the orchestrator, recorded in document order. -/
inductive Call where
  | summarize (chunk : List Char) (model style : String)
  | combine (summaries : List (List Char)) (model style title : String)
  deriving DecidableEq

/-- Whether a recorded call is a Combiner call. -/
def Call.isCombine : Call → Bool
  | .combine .. => true
  | _ => false

/-- Whether a service answer is a success. -/
def isOkB {ε α : Type} : Except ε α → Bool
  | .ok _ => true
  | .error _ => false

/-- The success value of a service answer, with a default for errors. -/
def okOr {ε α : Type} : Except ε α → α → α
  | .ok a, _ => a
  | .error _, d => d

/-- Whether a pipeline result is a propagated generation-service failure. -/
def isGenFailure : Except PError (List Char) → Bool
  | .error (.genError _) => true
  | _ => false

/-- `summarize_chunk` as seen through the oracle: issue the request, strip
the response (`summarizer.py` line 54). -/
def summarize_chunk (oracle : GenRequest → Except GenErr (List Char))
    (chunk : List Char) (model style : String) : Except GenErr (List Char) :=
  (oracle (summarizeChunkRequest chunk model style)).map pyStrip

/-- `combine_chunk_summaries` as seen through the oracle. -/
def combine_chunk_summaries (oracle : GenRequest → Except GenErr (List Char))
    (summaries : List (List Char)) (model style title : String) :
    Except GenErr (List Char) :=
  (oracle (combineRequest summaries model style title)).map pyStrip

/-- The per-chunk summarization loop of `summarize_document`
(`agent_pdf_summarizer.py` lines 203-207): sequential, in document order,
the first failure propagates.  Returns the collected summaries (or the
error) together with the trace of Chunk Summarizer calls made. -/
def summarizeChunks (oracle : GenRequest → Except GenErr (List Char))
    (model style : String) :
    List (List Char) → Except GenErr (List (List Char)) × List Call
  | [] => (Except.ok [], [])
  | chunk :: rest =>
    match summarize_chunk oracle chunk model style with
    | Except.error e => (Except.error e, [Call.summarize chunk model style])
    | Except.ok s =>
      match summarizeChunks oracle model style rest with
      | (Except.error e, trace) => (Except.error e, Call.summarize chunk model style :: trace)
      | (Except.ok ss, trace) => (Except.ok (s :: ss), Call.summarize chunk model style :: trace)

/-- The single-chunk path of the orchestrator (`agent_pdf_summarizer.py`
lines 191-200): one Combiner call, directly on the raw chunk text. -/
def singlePath (oracle : GenRequest → Except GenErr (List Char))
    (c : List Char) (model style title : String) :
    Except PError (List Char) × List Call :=
  match combine_chunk_summaries oracle [c] model style title with
  | Except.error e =>
    (Except.error (PError.genError e), [Call.combine [c] model style title])
  | Except.ok s => (Except.ok s, [Call.combine [c] model style title])

/-- The final combination step of the map-reduce path: one Combiner call on
the collected summaries, appended to the trace of Chunk Summarizer calls. -/
def combineStep (oracle : GenRequest → Except GenErr (List Char))
    (parts : List (List Char)) (trace : List Call) (model style title : String) :
    Except PError (List Char) × List Call :=
  match combine_chunk_summaries oracle parts model style title with
  | Except.error e =>
    (Except.error (PError.genError e), trace ++ [Call.combine parts model style title])
  | Except.ok s =>
    (Except.ok s, trace ++ [Call.combine parts model style title])

/-- The map-reduce path of the orchestrator (`agent_pdf_summarizer.py`
lines 202-217): summarize every chunk in order, then combine the collected
summaries. -/
def mapReducePath (oracle : GenRequest → Except GenErr (List Char))
    (chunks : List (List Char)) (model style title : String) :
    Except PError (List Char) × List Call :=
  match summarizeChunks oracle model style chunks with
  | (Except.error e, trace) => (Except.error (PError.genError e), trace)
  | (Except.ok parts, trace) => combineStep oracle parts trace model style title

/-- The orchestrator `summarize_document` (`agent_pdf_summarizer.py` lines
171-217; `summarize_pdf_bytes` of `summarizer.py` lines 120-146 is the
identical logic after extraction), applied to the extracted text:
empty-text check, chunking with overlap fixed at 500, then either the
single-chunk Combiner path or the map-reduce path.  `none` models the
divergence of the unguarded chunking loop; the second component is the
trace of generation-service calls, in order. -/
def summarize_document (oracle : GenRequest → Except GenErr (List Char))
    (text : List Char) (title model style : String) (max_chars : Nat) :
    Option (Except PError (List Char) × List Call) :=
  if pyStrip text = [] then some (Except.error PError.emptyDocument, [])
  else
    match chunk_text text max_chars 500 with
    | none => none
    | some [c] => some (singlePath oracle c model style title)
    | some chunks => some (mapReducePath oracle chunks model style title)

/-- The per-document step of `process_pdfs` (`agent_pdf_summarizer.py` lines
256-270): the output file (header plus summary) is written only when
`summarize_document` returns normally; on an exception nothing is written.
Outer `none` models divergence, inner `none` means no file was written. -/
def process_document_output (oracle : GenRequest → Except GenErr (List Char))
    (text : List Char) (fname title model style : String) (max_chars : Nat) :
    Option (Option (List Char)) :=
  (summarize_document oracle text title model style max_chars).map fun p =>
    match p.1 with
    | Except.ok s => some (("# Summary for ").data ++ fname.data ++ ("\n\n").data ++ s)
    | Except.error _ => none

/-- An oracle that answers every request successfully. -/
def constOkOracle : GenRequest → Except GenErr (List Char) :=
  fun _ => Except.ok (("ok").data)

/-- An oracle that fails every request. -/
def constFailOracle : GenRequest → Except GenErr (List Char) :=
  fun _ => Except.error (GenErr.serviceError "boom")

lemma take_min (l : List Char) (b : Nat) : l.take (min b l.length) = l.take b := by
  rcases Nat.le_total b l.length with h | h
  · rw [Nat.min_eq_left h]
  · rw [Nat.min_eq_right h, List.take_length, List.take_of_length_le h]

lemma pySlice_natCast (text : List Char) (a b : Nat) :
    pySlice text (a : Int) (b : Int) = (text.take b).drop a := by
  have ha : sliceBound text.length (a : Int) = min a text.length := by
    simp [sliceBound]
  have hb : sliceBound text.length (b : Int) = min b text.length := by
    simp [sliceBound]
  rw [pySlice, ha, hb, take_min]
  rcases Nat.le_total a text.length with h | h
  · rw [Nat.min_eq_left h]
  · rw [Nat.min_eq_right h]
    have hlen : (text.take b).length ≤ text.length := by
      simp [List.length_take]
    rw [List.drop_eq_nil_of_le hlen, List.drop_eq_nil_of_le (le_trans hlen h)]

lemma pySlice_window (text : List Char) (a b : Nat) :
    pySlice text (a : Int) ((a : Int) + (b : Int)) =
      sliceRange text (a, min (a + b) text.length) := by
  have : ((a : Int) + (b : Int)) = ((a + b : Nat) : Int) := by push_cast; ring
  rw [this, pySlice_natCast, sliceRange]
  exact congrArg _ (take_min text (a + b)).symm

lemma windowsFrom_nil {n c s fuel start : Nat} (h : n ≤ start) :
    windowsFrom n c s fuel start = [] := by
  cases fuel with
  | zero => rfl
  | succ fuel => rw [windowsFrom, if_neg (Nat.not_lt.mpr h)]

lemma windowsFrom_cons {n c s fuel start : Nat} {r : Nat × Nat} {rest : List (Nat × Nat)}
    (h : windowsFrom n c s fuel start = r :: rest) :
    r = (start, min (start + c) n) ∧ start < n ∧
      rest = windowsFrom n c s (fuel - 1) (start + s) := by
  cases fuel with
  | zero => simp [windowsFrom] at h
  | succ fuel =>
    rw [windowsFrom] at h
    by_cases hlt : start < n
    · rw [if_pos hlt] at h
      exact ⟨(List.cons.injEq _ _ _ _ ▸ h).1.symm, hlt,
        ((List.cons.injEq _ _ _ _ ▸ h).2).symm⟩
    · rw [if_neg hlt] at h
      exact absurd h (by simp)

lemma windowsFrom_getElem {n c s : Nat} (hs : 0 < s) :
    ∀ (fuel start i : Nat), n - start ≤ fuel →
      (windowsFrom n c s fuel start)[i]? =
        if start + i * s < n then
          some (start + i * s, min (start + i * s + c) n)
        else none := by
  intro fuel
  induction fuel with
  | zero =>
    intro start i h
    have hns : n ≤ start := by omega
    have : start ≤ start + i * s := Nat.le_add_right _ _
    rw [windowsFrom, if_neg (by omega)]
    simp
  | succ fuel ih =>
    intro start i h
    by_cases hlt : start < n
    · rw [windowsFrom, if_pos hlt]
      cases i with
      | zero =>
        simp [hlt]
      | succ i =>
        rw [List.getElem?_cons_succ, ih (start + s) i (by omega)]
        have harith : start + s + i * s = start + (i + 1) * s := by ring
        rw [harith]
    · rw [windowsFrom, if_neg hlt]
      have : start ≤ start + i * s := Nat.le_add_right _ _
      rw [if_neg (by omega)]
      simp

lemma windowsFrom_cover {n c s : Nat} (hs : 0 < s) (hsc : s ≤ c) :
    ∀ (fuel start p : Nat), n - start ≤ fuel → start ≤ p → p < n →
      ∃ r ∈ windowsFrom n c s fuel start, r.1 ≤ p ∧ p < r.2 := by
  intro fuel
  induction fuel with
  | zero => intro start p h hsp hp; omega
  | succ fuel ih =>
    intro start p h hsp hp
    have hlt : start < n := Nat.lt_of_le_of_lt hsp hp
    rw [windowsFrom, if_pos hlt]
    by_cases hpc : p < start + c
    · exact ⟨(start, min (start + c) n), List.mem_cons_self _ _,
        hsp, lt_min hpc hp⟩
    · obtain ⟨r, hr, hrp⟩ := ih (start + s) p (by omega) (by omega) hp
      exact ⟨r, List.mem_cons_of_mem _ hr, hrp⟩

lemma windowsFrom_pairs {n c s o : Nat} (hs : 0 < s) (hos : o ≤ s) (hc : c = s + o) :
    ∀ (fuel start : Nat), n - start ≤ fuel →
      ∀ pr ∈ (((windowsFrom n c s fuel start).zip
          (windowsFrom n c s fuel start).tail).dropLast),
        interLen pr.1 pr.2 = o := by
  intro fuel
  induction fuel with
  | zero =>
    intro start h pr hpr
    rw [windowsFrom] at hpr
    simp at hpr
  | succ fuel ih =>
    intro start h pr hpr
    by_cases hlt : start < n
    · rw [windowsFrom, if_pos hlt] at hpr
      rcases hR : windowsFrom n c s fuel (start + s) with _ | ⟨r1, R2⟩
      · rw [hR] at hpr
        simp at hpr
      · rcases hR2 : R2 with _ | ⟨r2, R3⟩
        · rw [hR2] at hR
          rw [hR] at hpr
          simp [List.zip] at hpr
        · rw [hR2] at hR
          rw [hR] at hpr
          simp only [List.tail_cons, List.zip_cons_cons, List.dropLast_cons₂] at hpr
          rcases List.mem_cons.mp hpr with hhead | htail
          · -- the pair of the first two windows; a third window exists
            obtain ⟨hr1, hlt1, hrest1⟩ := windowsFrom_cons hR
            obtain ⟨hr2, hlt2, _⟩ := windowsFrom_cons hrest1.symm
            subst hhead
            have h1 : start + c ≤ start + s + s := by omega
            have h2 : start + c < n := by omega
            simp only [interLen, hr1]
            have e1 : min (start + c) n = start + c := Nat.min_eq_left (Nat.le_of_lt h2)
            have e3 : max start (start + s) = start + s := Nat.max_eq_right (by omega)
            have e2 : start + c ≤ min (start + s + c) n := by
              have hle : start + c ≤ start + s + c := by omega
              exact le_min hle (Nat.le_of_lt h2)
            have e4 : min (start + c) (min (start + s + c) n) = start + c :=
              Nat.min_eq_left e2
            rw [e1, e3, e4]
            omega
          · apply ih (start + s) (by omega) pr
            rw [hR]
            simpa [List.zip_cons_cons] using htail
    · rw [windowsFrom, if_neg hlt] at hpr
      simp at hpr

lemma chunkLoop_eq {text : List Char} {c o : Nat} (ho : o < c) :
    ∀ (fuel start : Nat) (acc : List (List Char)), text.length - start ≤ fuel →
      chunkLoop text (c : Int) (o : Int) (fuel + 1) (start : Int) ((start : Int) + (c : Int)) acc =
        some (acc ++ (windowsFrom text.length c (c - o) fuel start).map (sliceRange text)) := by
  intro fuel
  induction fuel with
  | zero =>
    intro start acc h
    have hns : text.length ≤ start := by omega
    rw [chunkLoop, if_neg (by exact_mod_cast Nat.not_lt.mpr hns), windowsFrom]
    simp
  | succ fuel ih =>
    intro start acc h
    by_cases hlt : start < text.length
    · rw [chunkLoop, if_pos (by exact_mod_cast hlt)]
      have e1 : (start : Int) + (c : Int) - (o : Int) = ((start + (c - o) : Nat) : Int) := by
        push_cast [Nat.le_of_lt ho]
        ring
      rw [e1]
      have hfuel : text.length - (start + (c - o)) ≤ fuel := by omega
      have hrec := ih (start + (c - o))
        (acc ++ [pySlice text (start : Int) ((start : Int) + (c : Int))]) hfuel
      rw [hrec, windowsFrom, if_pos hlt, pySlice_window]
      simp

    · rw [chunkLoop, if_neg (by exact_mod_cast hlt), windowsFrom, if_neg hlt]
      simp

/-- For an in-range step (`0 < chunk_size - overlap`) and a text longer than
`chunk_size`, `chunk_text` terminates and returns exactly the slices of the
window ranges. -/
lemma chunk_text_eq_windows {text : List Char} {c o : Nat} (ho : o < c)
    (hlen : c < text.length) :
    chunk_text text c o =
      some ((windowRanges text.length c (c - o)).map (sliceRange text)) := by
  rw [chunk_text, if_neg (Nat.not_le.mpr hlen), windowRanges]
  have := @chunkLoop_eq text c o ho text.length 0 [] (by omega)
  simpa using this

/-- When `overlap ≥ chunk_size` the loop makes no forward progress: the start
offset never increases, so no amount of fuel finishes the loop. -/
lemma chunkLoop_stuck {text : List Char} {c o : Nat} (hco : c ≤ o)
    (hn : 0 < text.length) :
    ∀ (fuel : Nat) (start : Int) (acc : List (List Char)), start ≤ 0 →
      chunkLoop text (c : Int) (o : Int) fuel start (start + (c : Int)) acc = none := by
  intro fuel
  induction fuel with
  | zero => intro start acc hstart; rfl
  | succ fuel ih =>
    intro start acc hstart
    have hlt : start < (text.length : Int) := by
      have : (0 : Int) < (text.length : Int) := by exact_mod_cast hn
      omega
    rw [chunkLoop, if_pos hlt]
    have e1 : start + (c : Int) - (o : Int) = (start + (c : Int) - (o : Int)) := rfl
    have e2 : start + (c : Int) - (o : Int) + (c : Int) =
        (start + (c : Int) - (o : Int)) + (c : Int) := rfl
    have hle : start + (c : Int) - (o : Int) ≤ 0 := by
      have : (c : Int) ≤ (o : Int) := by exact_mod_cast hco
      omega
    exact ih (start + (c : Int) - (o : Int)) _ hle

lemma summarizeChunks_trace_noCombine (oracle : GenRequest → Except GenErr (List Char))
    (model style : String) :
    ∀ chunks, ((summarizeChunks oracle model style chunks).2.all fun cl => ! cl.isCombine) = true := by
  intro chunks
  induction chunks with
  | nil => rfl
  | cons chunk rest ih =>
    rw [summarizeChunks]
    cases hsc : summarize_chunk oracle chunk model style with
    | error e => simp [Call.isCombine]
    | ok s =>
      rcases hrec : summarizeChunks oracle model style rest with ⟨res, trace⟩
      rw [hrec] at ih
      cases res with
      | error e => simpa [Call.isCombine] using ih
      | ok ss => simpa [Call.isCombine] using ih

lemma summarizeChunks_ok (oracle : GenRequest → Except GenErr (List Char))
    (model style : String) :
    ∀ chunks, (∀ c ∈ chunks, isOkB (oracle (summarizeChunkRequest c model style)) = true) →
      summarizeChunks oracle model style chunks =
        (Except.ok (chunks.map fun c =>
            pyStrip (okOr (oracle (summarizeChunkRequest c model style)) [])),
          chunks.map fun c => Call.summarize c model style) := by
  intro chunks
  induction chunks with
  | nil => intro _; rfl
  | cons chunk rest ih =>
    intro hok
    have hhead := hok chunk (List.mem_cons_self _ _)
    cases horacle : oracle (summarizeChunkRequest chunk model style) with
    | error e => rw [horacle] at hhead; simp [isOkB] at hhead
    | ok v =>
      have hsc : summarize_chunk oracle chunk model style = Except.ok (pyStrip v) := by
        rw [summarize_chunk, horacle]; rfl
      rw [summarizeChunks, hsc, ih fun c hc => hok c (List.mem_cons_of_mem _ hc)]
      simp [horacle, okOr]

lemma summarizeChunks_fail (oracle : GenRequest → Except GenErr (List Char))
    (model style : String) :
    ∀ chunks, (∃ c ∈ chunks, isOkB (oracle (summarizeChunkRequest c model style)) = false) →
      isOkB (summarizeChunks oracle model style chunks).1 = false := by
  intro chunks
  induction chunks with
  | nil => intro hfail; simp at hfail
  | cons chunk rest ih =>
    intro hfail
    rw [summarizeChunks]
    cases horacle : oracle (summarizeChunkRequest chunk model style) with
    | error e =>
      have hsc : summarize_chunk oracle chunk model style = Except.error e := by
        rw [summarize_chunk, horacle]; rfl
      rw [hsc]
      rfl
    | ok v =>
      have hsc : summarize_chunk oracle chunk model style = Except.ok (pyStrip v) := by
        rw [summarize_chunk, horacle]; rfl
      rw [hsc]
      have hrest : ∃ c ∈ rest, isOkB (oracle (summarizeChunkRequest c model style)) = false := by
        rcases hfail with ⟨c, hcmem, hcfail⟩
        rcases List.mem_cons.mp hcmem with rfl | hmem
        · rw [horacle] at hcfail; simp [isOkB] at hcfail
        · exact ⟨c, hmem, hcfail⟩
      have hres := ih hrest
      rcases hrec : summarizeChunks oracle model style rest with ⟨res, trace⟩
      rw [hrec] at hres
      cases res with
      | error e => rfl
      | ok ss => simp [isOkB] at hres

lemma singlePath_trace (oracle : GenRequest → Except GenErr (List Char))
    (c : List Char) (model style title : String) :
    (singlePath oracle c model style title).2 = [Call.combine [c] model style title] := by
  rw [singlePath]
  cases combine_chunk_summaries oracle [c] model style title with
  | error e => rfl
  | ok s => rfl

lemma combineStep_trace (oracle : GenRequest → Except GenErr (List Char))
    (parts : List (List Char)) (trace : List Call) (model style title : String) :
    (combineStep oracle parts trace model style title).2 =
      trace ++ [Call.combine parts model style title] := by
  rw [combineStep]
  cases combine_chunk_summaries oracle parts model style title with
  | error e => rfl
  | ok s => rfl

lemma mapReducePath_trace_ok (oracle : GenRequest → Except GenErr (List Char))
    (chunks : List (List Char)) (model style title : String)
    (hok : ∀ c ∈ chunks, isOkB (oracle (summarizeChunkRequest c model style)) = true) :
    (mapReducePath oracle chunks model style title).2 =
      (chunks.map fun c => Call.summarize c model style) ++
        [Call.combine
          (chunks.map fun c => pyStrip (okOr (oracle (summarizeChunkRequest c model style)) []))
          model style title] := by
  rw [mapReducePath, summarizeChunks_ok oracle model style chunks hok]
  exact combineStep_trace oracle
    (chunks.map fun c => pyStrip (okOr (oracle (summarizeChunkRequest c model style)) []))
    (chunks.map fun c => Call.summarize c model style) model style title

lemma mapReducePath_fail (oracle : GenRequest → Except GenErr (List Char))
    (chunks : List (List Char)) (model style title : String)
    (hfail : ∃ c ∈ chunks, isOkB (oracle (summarizeChunkRequest c model style)) = false) :
    isGenFailure (mapReducePath oracle chunks model style title).1 = true ∧
    ((mapReducePath oracle chunks model style title).2.all fun cl => ! cl.isCombine) = true := by
  have hres := summarizeChunks_fail oracle model style chunks hfail
  have hnc := summarizeChunks_trace_noCombine oracle model style chunks
  rcases hrec : summarizeChunks oracle model style chunks with ⟨res, trace⟩
  rw [hrec] at hres hnc
  cases res with
  | ok ss => simp [isOkB] at hres
  | error e =>
    rw [mapReducePath, hrec]
    exact ⟨rfl, hnc⟩

lemma summarize_document_single (oracle : GenRequest → Except GenErr (List Char))
    (text : List Char) (title model style : String) (mc : Nat) (c : List Char)
    (hne : pyStrip text ≠ []) (hch : chunk_text text mc 500 = some [c]) :
    summarize_document oracle text title model style mc =
      some (singlePath oracle c model style title) := by
  rw [summarize_document, if_neg hne, hch]

lemma summarize_document_multi (oracle : GenRequest → Except GenErr (List Char))
    (text : List Char) (title model style : String) (mc : Nat)
    (chunks : List (List Char))
    (hne : pyStrip text ≠ []) (hch : chunk_text text mc 500 = some chunks)
    (hlen : chunks.length ≠ 1) :
    summarize_document oracle text title model style mc =
      some (mapReducePath oracle chunks model style title) := by
  rw [summarize_document, if_neg hne, hch]
  rcases chunks with _ | ⟨c1, rest⟩
  · rfl
  · rcases rest with _ | ⟨c2, rest2⟩
    · simp at hlen
    · rfl

/-- C1 (counterexample to the claim as stated): with text length 5,
`chunk_size = 4`, `overlap = 3` — a valid configuration,
`0 < overlap < chunk_size` — the ranges of the chunks returned by
`chunk_text` are `(0,4), (1,5), (2,5), (3,5), (4,5)`; the consecutive pair
`(2,5), (3,5)`, which does not involve the final chunk, overlaps in only 2
characters instead of `overlap = 3`. -/
theorem chunk_ranges_claim_counterexample :
    (4 < (List.replicate 5 'a').length ∧ 0 < 3 ∧ 3 < 4) ∧
    chunk_text (List.replicate 5 'a') 4 3 =
      some ((windowRanges (List.replicate 5 'a').length 4 (4 - 3)).map
        (sliceRange (List.replicate 5 'a'))) ∧
    windowRanges 5 4 1 = [(0, 4), (1, 5), (2, 5), (3, 5), (4, 5)] ∧
    ¬ chunkRangeClaim (List.replicate 5 'a') 4 3 := by
  decide

/-- C1 (amended: additionally require `2 * overlap ≤ chunk_size`, which the
default configuration `chunk_size = 6000`, `overlap = 500` satisfies): for
every text longer than `chunk_size` and `0 < overlap < chunk_size` with
`2 * overlap ≤ chunk_size`, `chunk_text` returns exactly the slices of the
window ranges, the union of those ranges covers `[0, len(text))` with no
gap, and every pair of consecutive ranges not involving the final chunk
intersects in exactly `overlap` characters. -/
theorem chunk_ranges_cover_overlap_amended (text : List Char) (c o : Nat)
    (h1 : c < text.length) (h2 : 0 < o) (h3 : o < c) (h4 : 2 * o ≤ c) :
    chunk_text text c o =
      some ((windowRanges text.length c (c - o)).map (sliceRange text)) ∧
    chunkRangeClaim text c o := by
  refine ⟨chunk_text_eq_windows h3 h1, ?_, ?_⟩
  · intro p hp
    exact windowsFrom_cover (by omega) (by omega) text.length 0 p (by omega) (by omega) hp
  · intro pr hpr
    exact @windowsFrom_pairs text.length c (c - o) o
      (by omega) (by omega) (by omega) text.length 0 (by omega) pr hpr

/-- C1 witness: a concrete valid configuration (text length 4,
`chunk_size = 3`, `overlap = 1`) satisfying the amended hypotheses and the
claimed coverage/overlap property. -/
theorem chunk_ranges_cover_overlap_amended_witness :
    (3 < (List.replicate 4 'a').length ∧ 0 < 1 ∧ 1 < 3 ∧ 2 * 1 ≤ 3) ∧
    (chunk_text (List.replicate 4 'a') 3 1 =
        some ((windowRanges (List.replicate 4 'a').length 3 (3 - 1)).map
          (sliceRange (List.replicate 4 'a'))) ∧
      chunkRangeClaim (List.replicate 4 'a') 3 1) :=
  ⟨by decide, chunk_ranges_cover_overlap_amended (List.replicate 4 'a') 3 1
    (by decide) (by decide) (by decide) (by decide)⟩

/-- C3: for every text with `len(text) ≤ chunk_size`, `chunk_text` returns
exactly one chunk, and that chunk is the whole text. -/
theorem chunk_text_single (text : List Char) (c o : Nat) (h : text.length ≤ c) :
    chunk_text text c o = some [text] := by
  rw [chunk_text, if_pos h]

/-- C3 witness. -/
theorem chunk_text_single_witness :
    ("abc".data.length ≤ 6000) ∧ chunk_text ("abc".data) 6000 500 = some [("abc".data)] :=
  ⟨by decide, chunk_text_single ("abc".data) 6000 500 (by decide)⟩

/-- C4: for a text longer than `chunk_size` and `0 < overlap < chunk_size`,
the i-th chunk is the window of `text` of length `chunk_size` starting at
offset `i * (chunk_size - overlap)` (clipped by the end of the string), and
windows exist exactly while the start offset is below `len(text)`; in
particular, for a text of 6001 characters with `chunk_size = 6000` and
`overlap = 500`, exactly two chunks are returned and the second starts at
offset 5500. -/
theorem chunk_text_window_offsets :
    (∀ (text : List Char) (c o : Nat), c < text.length → 0 < o → o < c →
      chunk_text text c o =
          some ((windowRanges text.length c (c - o)).map (sliceRange text)) ∧
        ∀ i : Nat, (windowRanges text.length c (c - o))[i]? =
          if i * (c - o) < text.length then
            some (i * (c - o), min (i * (c - o) + c) text.length)
          else none) ∧
    (windowRanges 6001 6000 5500 = [(0, 6000), (5500, 6001)] ∧
      chunk_text (List.replicate 6001 'a') 6000 500 =
        some ((windowRanges 6001 6000 5500).map (sliceRange (List.replicate 6001 'a')))) := by
  constructor
  · intro text c o h1 h2 h3
    refine ⟨chunk_text_eq_windows h3 h1, ?_⟩
    intro i
    have := @windowsFrom_getElem text.length c (c - o) (by omega)
      text.length 0 i (by omega)
    simpa using this
  · constructor
    · decide
    · have h500 : (500 : Nat) < 6000 := by norm_num
      have hlen : (6000 : Nat) < (List.replicate 6001 'a').length := by
        rw [List.length_replicate]
        norm_num
      have := chunk_text_eq_windows h500 hlen
      rw [List.length_replicate] at this
      norm_num at this
      exact this

/-- C4 witness: a small valid configuration (text length 7, `chunk_size = 3`,
`overlap = 1`). -/
theorem chunk_text_window_offsets_witness :
    (3 < (List.replicate 7 'a').length ∧ 0 < 1 ∧ 1 < 3) ∧
    chunk_text (List.replicate 7 'a') 3 1 =
      some ((windowRanges (List.replicate 7 'a').length 3 (3 - 1)).map
        (sliceRange (List.replicate 7 'a'))) :=
  ⟨by decide, (chunk_text_window_offsets.1 (List.replicate 7 'a') 3 1
    (by decide) (by decide) (by decide)).1⟩

/-- C5 (the code contradicts the claim): for `overlap ≥ chunk_size` and a
text longer than `chunk_size`, the source raises no `ConfigurationError`;
its loop makes no forward progress and never terminates — no fuel finishes
`chunkLoop`, and `chunk_text` reports the divergence as `none`. -/
theorem chunk_text_diverges_on_large_overlap (text : List Char) (c o : Nat)
    (hco : c ≤ o) (hlen : c < text.length) :
    (∀ fuel acc, chunkLoop text (c : Int) (o : Int) fuel 0 (c : Int) acc = none) ∧
    chunk_text text c o = none := by
  have hn : 0 < text.length := by omega
  have hstuck : ∀ (fuel : Nat) (acc : List (List Char)),
      chunkLoop text (c : Int) (o : Int) fuel 0 ((0 : Int) + (c : Int)) acc = none :=
    fun fuel acc => chunkLoop_stuck hco hn fuel 0 acc (le_refl 0)
  constructor
  · intro fuel acc
    have := hstuck fuel acc
    simpa using this
  · rw [chunk_text, if_neg (Nat.not_le.mpr hlen)]
    have := hstuck (text.length + 1) []
    simpa using this

/-- C5 witness: the concrete failing input `chunk_size = 1`, `overlap = 1`,
text of two characters. -/
theorem chunk_text_diverges_on_large_overlap_witness :
    ((1 : Nat) ≤ 1 ∧ 1 < (List.replicate 2 'a').length) ∧
    chunk_text (List.replicate 2 'a') 1 1 = none :=
  ⟨by decide, (chunk_text_diverges_on_large_overlap (List.replicate 2 'a') 1 1
    (by decide) (by decide)).2⟩

/-- C10: for every text, `chunk_size ≥ 1` and `0 ≤ overlap < chunk_size`,
the chunking loop terminates (the supplied fuel `len(text) + 1` suffices,
because each iteration advances the start offset by
`chunk_size - overlap ≥ 1`), so `chunk_text` returns a (finite) list. -/
theorem chunk_text_terminates (text : List Char) (c o : Nat)
    (_hc : 0 < c) (ho : o < c) : (chunk_text text c o).isSome := by
  by_cases h : text.length ≤ c
  · rw [chunk_text, if_pos h]; rfl
  · rw [chunk_text_eq_windows ho (Nat.not_le.mp h)]; rfl

/-- C10 witness. -/
theorem chunk_text_terminates_witness :
    ((0 : Nat) < 1 ∧ (0 : Nat) < 1) ∧ (chunk_text (List.replicate 2 'a') 1 0).isSome :=
  ⟨by decide, chunk_text_terminates (List.replicate 2 'a') 1 0 (by decide) (by decide)⟩

/-- C2: for every document (non-empty stripped text, chunking terminating),
if chunking yields exactly one chunk the orchestrator makes a single
Combiner call on that chunk's raw text and no Chunk Summarizer call;
otherwise (every per-chunk call succeeding) it makes one Chunk Summarizer
call per chunk, in document order, followed by one Combiner call whose
summaries are the per-chunk results in the original chunk order. -/
theorem summarize_document_paths
    (oracle : GenRequest → Except GenErr (List Char))
    (text : List Char) (title model style : String) (mc : Nat)
    (chunks : List (List Char))
    (hne : pyStrip text ≠ [])
    (hch : chunk_text text mc 500 = some chunks) :
    (∀ c, chunks = [c] →
      (summarize_document oracle text title model style mc).map Prod.snd =
        some [Call.combine [c] model style title]) ∧
    (chunks.length ≠ 1 →
      (∀ c ∈ chunks, isOkB (oracle (summarizeChunkRequest c model style)) = true) →
      (summarize_document oracle text title model style mc).map Prod.snd =
        some ((chunks.map fun c => Call.summarize c model style) ++
          [Call.combine
            (chunks.map fun c => pyStrip (okOr (oracle (summarizeChunkRequest c model style)) []))
            model style title])) := by
  constructor
  · intro c hc
    subst hc
    rw [summarize_document_single oracle text title model style mc c hne hch,
      Option.map_some', singlePath_trace]
  · intro hlen hok
    rw [summarize_document_multi oracle text title model style mc chunks hne hch hlen,
      Option.map_some', mapReducePath_trace_ok oracle chunks model style title hok]

/-- C2 witness: the single-chunk path on a three-character text, and the
map-reduce path on a 1002-character text with `max_chars = 1001`
(overlap is fixed at 500), both under an all-successful oracle. -/
theorem summarize_document_paths_witness :
    (pyStrip ("abc".data) ≠ [] ∧ chunk_text ("abc".data) 6000 500 = some [("abc".data)]) ∧
    (summarize_document constOkOracle ("abc".data) "t" "m" "default" 6000).map Prod.snd =
      some [Call.combine [("abc".data)] "m" "default" "t"] ∧
    (pyStrip (List.replicate 1002 'a') ≠ [] ∧
      chunk_text (List.replicate 1002 'a') 1001 500 =
        some [List.replicate 1001 'a', List.replicate 501 'a'] ∧
      ([List.replicate 1001 'a', List.replicate 501 'a'] : List (List Char)).length ≠ 1) ∧
    (summarize_document constOkOracle (List.replicate 1002 'a') "t" "m" "default" 1001).map
        Prod.snd =
      some ((([List.replicate 1001 'a', List.replicate 501 'a'] : List (List Char)).map
          fun c => Call.summarize c "m" "default") ++
        [Call.combine
          (([List.replicate 1001 'a', List.replicate 501 'a'] : List (List Char)).map
            fun c => pyStrip (okOr (constOkOracle (summarizeChunkRequest c "m" "default")) []))
          "m" "default" "t"]) :=
  ⟨⟨by decide, by decide⟩,
    (summarize_document_paths constOkOracle ("abc".data) "t" "m" "default" 6000
      [("abc".data)] (by decide) (by decide)).1 ("abc".data) rfl,
    ⟨by decide, by decide, by decide⟩,
    (summarize_document_paths constOkOracle (List.replicate 1002 'a') "t" "m" "default" 1001
      [List.replicate 1001 'a', List.replicate 501 'a'] (by decide) (by decide)).2
      (by decide) (by decide)⟩

/-- C6: for a document whose extracted text is empty, the pipeline fails
with the empty-document error (the spec's `EmptyDocumentError`, the
source's `ValueError("No text extracted from PDF.")`) and the trace of
generation-service calls is empty. -/
theorem summarize_document_empty_text
    (oracle : GenRequest → Except GenErr (List Char))
    (title model style : String) (mc : Nat) :
    summarize_document oracle [] title model style mc =
      some (Except.error PError.emptyDocument, []) := by
  rfl

/-- C7: for a multi-chunk document, if some chunk's generation-service call
fails, the result is a propagated generation failure, the Combiner is never
called (the trace holds Chunk Summarizer calls only, so in particular no
Combiner call with a partial subset of summaries), and no output file is
written for the document. -/
theorem summarize_document_chunk_failure
    (oracle : GenRequest → Except GenErr (List Char))
    (text : List Char) (fname title model style : String) (mc : Nat)
    (chunks : List (List Char))
    (hne : pyStrip text ≠ [])
    (hch : chunk_text text mc 500 = some chunks)
    (hlen : chunks.length ≠ 1)
    (hfail : ∃ c ∈ chunks, isOkB (oracle (summarizeChunkRequest c model style)) = false) :
    (summarize_document oracle text title model style mc).map
        (fun p => (isGenFailure p.1, p.2.all fun cl => ! cl.isCombine)) =
      some (true, true) ∧
    process_document_output oracle text fname title model style mc = some none := by
  have hmulti := summarize_document_multi oracle text title model style mc chunks hne hch hlen
  have hfail2 := mapReducePath_fail oracle chunks model style title hfail
  constructor
  · rw [hmulti, Option.map_some', hfail2.1, hfail2.2]
  · rw [process_document_output, hmulti, Option.map_some']
    cases hp : (mapReducePath oracle chunks model style title).1 with
    | ok s =>
      rw [hp] at hfail2
      simp [isGenFailure] at hfail2
    | error pe => rfl

/-- C7 witness: a two-chunk document under an all-failing oracle. -/
theorem summarize_document_chunk_failure_witness :
    (pyStrip (List.replicate 1002 'a') ≠ [] ∧
      chunk_text (List.replicate 1002 'a') 1001 500 =
        some [List.replicate 1001 'a', List.replicate 501 'a'] ∧
      ([List.replicate 1001 'a', List.replicate 501 'a'] : List (List Char)).length ≠ 1) ∧
    ((summarize_document constFailOracle (List.replicate 1002 'a') "t" "m" "default" 1001).map
        (fun p => (isGenFailure p.1, p.2.all fun cl => ! cl.isCombine)) = some (true, true) ∧
      process_document_output constFailOracle (List.replicate 1002 'a')
        "f.pdf" "t" "m" "default" 1001 = some none) :=
  ⟨⟨by decide, by decide, by decide⟩,
    summarize_document_chunk_failure constFailOracle (List.replicate 1002 'a')
      "f.pdf" "t" "m" "default" 1001 [List.replicate 1001 'a', List.replicate 501 'a']
      (by decide) (by decide) (by decide) (by decide)⟩

/-- C8: every style string outside the four keys resolves, in both the
Chunk Summarizer table and the Summary Combiner table, to the same tone
instruction as the style "default". -/
theorem style_fallback_default (style : String)
    (h1 : style ≠ "default") (h2 : style ≠ "bullet")
    (h3 : style ≠ "narrative") (h4 : style ≠ "executive") :
    chunkStyleInstruction style = chunkStyleInstruction "default" ∧
    combineStyleInstruction style = combineStyleInstruction "default" := by
  constructor
  · rw [chunkStyleInstruction, if_neg h1, if_neg h2, if_neg h3, if_neg h4]
    rfl
  · rw [combineStyleInstruction, if_neg h1, if_neg h2, if_neg h3, if_neg h4]
    rfl

/-- C8 witness: the unknown style "casual". -/
theorem style_fallback_default_witness :
    (("casual" : String) ≠ "default" ∧ ("casual" : String) ≠ "bullet" ∧
      ("casual" : String) ≠ "narrative" ∧ ("casual" : String) ≠ "executive") ∧
    (chunkStyleInstruction "casual" = chunkStyleInstruction "default" ∧
      combineStyleInstruction "casual" = combineStyleInstruction "default") :=
  ⟨⟨by decide, by decide, by decide, by decide⟩,
    style_fallback_default "casual" (by decide) (by decide) (by decide) (by decide)⟩

/-- C9: the user message of a Chunk Summarizer request carries the fixed
preamble followed by the first at-most-12,000 characters of the chunk, and
the user message of a Combiner request carries the fixed preamble followed
by the first at-most-24,000 characters of all the summaries joined in order
with the separator; the truncations are silent. -/
theorem request_truncation (chunk : List Char) (summaries : List (List Char))
    (model style title : String) :
    userContent (summarizeChunkRequest chunk model style) =
        chunkUserPreamble ++ chunk.take 12000 ∧
      (chunk.take 12000).length = min 12000 chunk.length ∧
      userContent (combineRequest summaries model style title) =
        combineUserPreamble title style ++
          (List.intercalate combineSeparator summaries).take 24000 ∧
      ((List.intercalate combineSeparator summaries).take 24000).length =
        min 24000 (List.intercalate combineSeparator summaries).length := by
  refine ⟨rfl, ?_, rfl, ?_⟩ <;> simp [List.length_take]

end PdfAgent
